import Mathlib

/-!
Shallow embedding of `splice_graft.py` (GitHub default-branch bulk renaming
tool).  Python/JSON values are modelled by the inductive type `Json`
(Python `None` is `Json.null`); fallible Python code is modelled in the
`Except PyErr` monad, with one error constructor per kind of Python
exception the embedded code can raise.
-/

/-- JSON/Python values as delivered by `requests.post(...).json()`. -/
inductive Json : Type
  | null
  | bool (b : Bool)
  | num (n : Int)
  | str (s : String)
  | arr (items : List Json)
  | obj (fields : List (String × Json))

/-- Python exceptions raised by the embedded fragments of the program. -/
inductive PyErr : Type
  | valueError (msg : String)
  | keyError (key : String)
  | attrError
  | assertError
  | typeError

/-- Python truthiness (`bool(v)`) of a JSON value. -/
def jsonTruthy : Json → Bool
  | .null => false
  | .bool b => b
  | .num n => n != 0
  | .str s => s != ""
  | .arr items => !items.isEmpty
  | .obj fields => !fields.isEmpty

/-- Key lookup in a JSON object field list (Python dicts have unique keys;
first match is taken). -/
def lookupField : List (String × Json) → String → Option Json
  | [], _ => none
  | (k, v) :: rest, key => if k == key then some v else lookupField rest key

/-- Python `d.get(k)` on a dict-typed value: `none` when the key is absent,
`AttributeError` when the receiver is not a dict. -/
def dictGet (j : Json) (key : String) : Except PyErr (Option Json) :=
  match j with
  | .obj fields => .ok (lookupField fields key)
  | _ => .error .attrError

/-- Python `d[k]` subscription: `KeyError` when the key is absent,
`TypeError` when the receiver is not a dict. -/
def dictSubscript (j : Json) (key : String) : Except PyErr Json :=
  match j with
  | .obj fields =>
    match lookupField fields key with
    | some v => .ok v
    | none => .error (.keyError key)
  | _ => .error .typeError

/-- Splitting a character list at every occurrence of `sep`, matching
Python `str.split(sep)` for a one-character separator. -/
def splitOnChar (sep : Char) : List Char → List (List Char)
  | [] => [[]]
  | c :: cs =>
    let rest := splitOnChar sep cs
    if c == sep then [] :: rest
    else
      match rest with
      | [] => [[c]]
      | seg :: segs => (c :: seg) :: segs

/-- Python `s.split(sep)` for a one-character separator. -/
def pySplit (sep : Char) (s : String) : List String :=
  (splitOnChar sep s.data).map (fun cs => String.mk cs)

/-- Outcome of `find()`: the value found, Python `None` (path broken,
`expect_exists` false), the raised `ValueError` (path broken,
`expect_exists` true), or `AttributeError` (`.get` on a non-dict). -/
inductive FindOutcome : Type
  | found (v : Json)
  | noneResult
  | raisedMissing
  | raisedAttr

/-- The key-walking loop of `find`: `elem = ret.get(key)` treats both an
absent key and a key mapped to `None` (JSON `null`) as missing. -/
def findSegs (expectExists : Bool) : List String → Json → FindOutcome
  | [], j => .found j
  | key :: rest, j =>
    match j with
    | .obj fields =>
      match lookupField fields key with
      | none => if expectExists then .raisedMissing else .noneResult
      | some .null => if expectExists then .raisedMissing else .noneResult
      | some v => findSegs expectExists rest v
    | _ => .raisedAttr

/-- Python `find(path, json, expect_exists)`: element lookup by dot-separated
path in a nested dict. -/
def find (path : String) (json : Json) (expectExists : Bool) : FindOutcome :=
  findSegs expectExists (pySplit '.' path) json

/-- Python `find_existing(path, json)`: `find` with `expect_exists=True`, in the
exception monad. -/
def findExisting (path : String) (json : Json) : Except PyErr Json :=
  match find path json true with
  | .found v => .ok v
  | .noneResult => .error (.valueError "find() did not find an expected path")
  | .raisedMissing => .error (.valueError "find() did not find an expected path")
  | .raisedAttr => .error .attrError

/-- Python `find` with `expect_exists=False`, in the exception monad: a broken
path yields Python `None` (`Json.null`). -/
def findOptional (path : String) (json : Json) : Except PyErr Json :=
  match find path json false with
  | .found v => .ok v
  | .noneResult => .ok .null
  | .raisedMissing => .ok .null
  | .raisedAttr => .error .attrError

/-- Structure `Page`: one page of results plus the cursor for the next page
(a Python value; `None` is `Json.null`). -/
structure Page (α : Type) where
  results : α
  curs : Json

/-- Method `Page.map`: replace the results by `f(results)`, keep the cursor. -/
def Page.map {α β : Type} (p : Page α) (f : α → β) : Page β :=
  ⟨f p.results, p.curs⟩

/-- Method `Page.from_api(page_info_path, api_resp)`: reject responses with a
truthy `errors` entry, then read the pagination descriptor and set the
cursor to `endCursor` only when `hasNextPage` is truthy. -/
def fromApi (pageInfoPath : String) (apiResp : Json) : Except PyErr (Page Json) := do
  let errsOpt ← dictGet apiResp "errors"
  if jsonTruthy (errsOpt.getD .null) then
    .error (.valueError "Errors in graphql response")
  else do
    let data ← dictSubscript apiResp "data"
    let pageInfo ← findExisting pageInfoPath data
    let hasNext ← dictSubscript pageInfo "hasNextPage"
    if jsonTruthy hasNext then do
      let endCurs ← dictSubscript pageInfo "endCursor"
      .ok ⟨data, endCurs⟩
    else
      .ok ⟨data, .null⟩

/-- Generator `Query.__iter__`, fuel-indexed: starting from cursor `after`
(initially `None`), fetch a page, yield its results, and continue with the
new cursor unless it is falsy (`if not after: break`).  Returns the
yielded items together with the number of fetch calls, or `none` when
`fuel` page fetches were not enough to finish. -/
def runIter {α : Type} (fetch : Json → Page (List α)) : Nat → Json → Option (List α × Nat)
  | 0, _ => none
  | fuel + 1, after =>
    let p := fetch after
    if jsonTruthy p.curs then
      match runIter fetch fuel p.curs with
      | none => none
      | some (items, n) => some (p.results ++ items, n + 1)
    else
      some (p.results, 1)

/-- The configured branch to replace (`REPLACING_BRANCH = 'master'`). -/
def REPLACING_BRANCH : String := "master"

/-- The filter condition of `QueryRepos.query`'s list comprehension for one
repository node: `(any_branch or find('defaultBranchRef.name', repo) ==
REPLACING_BRANCH) and not repo['isArchived']`, with Python short-circuit
evaluation. -/
def repoCondition (anyBranch : Bool) (repo : Json) : Except PyErr Bool := do
  let p1 ←
    if anyBranch then pure true
    else
      match find "defaultBranchRef.name" repo false with
      | .found v => pure (match v with | .str s => s == REPLACING_BRANCH | _ => false)
      | .noneResult => pure false
      | .raisedMissing => pure false
      | .raisedAttr => Except.error PyErr.attrError
  if p1 then
    let archived ← dictSubscript repo "isArchived"
    pure (!jsonTruthy archived)
  else
    pure false

/-- The list comprehension of `QueryRepos.query`: keep each repository
node passing `repoCondition` and project its `nameWithOwner`. -/
def reposFilter (anyBranch : Bool) : List Json → Except PyErr (List Json)
  | [] => .ok []
  | repo :: rest => do
    let keep ← repoCondition anyBranch repo
    if keep then
      let nm ← dictSubscript repo "nameWithOwner"
      let tail ← reposFilter anyBranch rest
      .ok (nm :: tail)
    else
      reposFilter anyBranch rest

/-- The `mapper` closure of `QueryRepos.query`: locate
`user.repositories.nodes`, `assert repos` (Python truthiness — the empty
list fails the assertion), then run the filtering comprehension.  A truthy
non-list `nodes` value would fail while being iterated; the claims never
reach that corner and it is collapsed to `TypeError`. -/
def queryReposMapper (anyBranch : Bool) (data : Json) : Except PyErr (List Json) := do
  let repos ← findExisting "user.repositories.nodes" data
  if jsonTruthy repos then
    match repos with
    | .arr rs => reposFilter anyBranch rs
    | _ => .error .typeError
  else
    .error .assertError

/-- Method `QueryRepos.query` applied to an already-received API response:
`Page.from_api` followed by `Page.map(mapper)` (Python `map` applies the
mapper eagerly, so its exceptions surface during `query`). -/
def queryReposOnResp (anyBranch : Bool) (apiResp : Json) : Except PyErr (Page (List Json)) := do
  let page ← fromApi "user.repositories.pageInfo" apiResp
  let mapped ← queryReposMapper anyBranch page.results
  .ok ⟨mapped, page.curs⟩

/-- Structure `PrInfo`: title, url and changed file paths of one pull request
(fields carry raw response values). -/
structure PrInfo : Type where
  title : Json
  url : Json
  changed_files : List Json

/-- The `[f['path'] for f in pr['files']['nodes']]` comprehension. -/
def prFilePaths : List Json → Except PyErr (List Json)
  | [] => .ok []
  | f :: fs => do
    let p ← dictSubscript f "path"
    let rest ← prFilePaths fs
    .ok (p :: rest)

/-- Closure `make_pr_info` from `QueryPrFiles.query`: build the `PrInfo` and then
check `files.pageInfo.hasNextPage` (a required path); the returned flag
records whether the truncation warning was logged.  No error is raised on
truncation. -/
def makePrInfo (pr : Json) : Except PyErr (PrInfo × Bool) := do
  let title ← dictSubscript pr "title"
  let url ← dictSubscript pr "url"
  let files ← dictSubscript pr "files"
  let nodes ← dictSubscript files "nodes"
  let paths ←
    match nodes with
    | .arr fs => prFilePaths fs
    | _ => Except.error PyErr.typeError
  let hasNext ← findExisting "files.pageInfo.hasNextPage" pr
  .ok (⟨title, url, paths⟩, jsonTruthy hasNext)

/-- The `mapper` closure of `QueryPrFiles.query`: locate
`repository.pullRequests.nodes` and build a `PrInfo` per node. -/
def queryPrsMapper (data : Json) : Except PyErr (List (PrInfo × Bool)) := do
  let prs ← findExisting "repository.pullRequests.nodes" data
  match prs with
  | .arr ps => ps.mapM makePrInfo
  | _ => Except.error PyErr.typeError

/-- Repo-reference parsing in `cli_find_pr`:
`owner, repo, *rest = args.repo.split('/')` followed by a `ValueError`
when `rest` is non-empty (a single-segment string already fails the
unpacking itself). -/
def parseRepoFindPr (s : String) : Except PyErr (String × String) :=
  match pySplit '/' s with
  | owner :: repo :: rest =>
    if rest.isEmpty then .ok (owner, repo)
    else .error (.valueError "Provided owner/repo has the wrong number of fields")
  | _ => .error (.valueError "not enough values to unpack")

/-- Repo-reference parsing in `get_branch_info`:
`owner, _, name = repo.partition('/')` splits on the first `/` only and
never fails; with no `/` the name is empty.  (Splitting on every `/` and
rejoining the tail is exactly `partition` for a one-character separator.) -/
def parseRepoPartition (s : String) : String × String :=
  match pySplit '/' s with
  | owner :: rest => (owner, String.intercalate "/" rest)
  | [] => ("", "")

/-- Python `s.rstrip()` (trailing whitespace removed). -/
def pyRstrip (s : String) : String :=
  String.mk ((s.data.reverse.dropWhile Char.isWhitespace).reverse)

/-- The network behaviour the `fix` workflow runs against: responses for
the `get_branch_info` query (by owner, name and branch variables), for the
`createRef` mutation (by repo id, qualified branch name and tip oid), and
the HTTP status of the default-branch PATCH (by repo path and new branch
name). -/
structure FixEnv : Type where
  branchInfoResp : String → String → String → Json
  newRefResp : Json → String → Json → Json
  patchStatus : String → String → Nat

/-- Observable steps of `cli_fix`, in program order: the `Processing`
line, the branch-tip report, one logged message per `createRef` error,
the issued PATCH request, the non-200 PATCH report, and the `Done` line. -/
inductive FixEvent : Type
  | processing (repoPath : String)
  | tipReported (repoPath : String) (tip : Json)
  | refErrorLogged (repoPath : String) (msg : Json)
  | patchIssued (repoPath : String) (newBranch : String)
  | patchErrorLogged (repoPath : String)
  | stepDone (repoPath : String)

/-- Python `get_branch_info(repo, branch)`: partition the repo reference on the
first `/`, query, and read `data.repository.id` and
`data.repository.ref.target.oid` with plain `find` (missing parts give
`None`). -/
def getBranchInfo (env : FixEnv) (repo : String) (branch : String) :
    Except PyErr (Json × Json) := do
  let (owner, name) := parseRepoPartition repo
  let res := env.branchInfoResp owner name branch
  let repoId ← findOptional "data.repository.id" res
  let tip ← findOptional "data.repository.ref.target.oid" res
  .ok (repoId, tip)

/-- The `for err in errs: eprint(... err['message'])` loop of `cli_fix`:
events logged so far plus the exception that interrupted the loop, if
any. -/
def logRefErrors (repoPath : String) : List Json → List FixEvent × Option PyErr
  | [] => ([], none)
  | e :: es =>
    match dictSubscript e "message" with
    | .error err => ([], some err)
    | .ok m =>
      let (evs, r) := logRefErrors repoPath es
      (.refErrorLogged repoPath m :: evs, r)

/-- The tail of one `cli_fix` iteration: issue the default-branch PATCH,
log a non-200 status, print `Done`. -/
def fixPatchEvents (env : FixEnv) (newBranchName : String) (repoPath : String) :
    List FixEvent :=
  [FixEvent.patchIssued repoPath newBranchName] ++
    (if env.patchStatus repoPath newBranchName == 200 then []
     else [FixEvent.patchErrorLogged repoPath]) ++
    [FixEvent.stepDone repoPath]

/-- One iteration of `cli_fix`'s loop body for an (already stripped) repo
path: events printed, plus the exception that aborted the iteration, if
any.  A truthy non-list `errors` value would fail while being iterated;
the claims never reach that corner and it is collapsed to `TypeError`. -/
def fixStep (env : FixEnv) (newBranchName : String) (repoPath : String) :
    List FixEvent × Option PyErr :=
  match getBranchInfo env repoPath REPLACING_BRANCH with
  | .error e => ([.processing repoPath], some e)
  | .ok (repoId, tip) =>
    let pre := [FixEvent.processing repoPath, FixEvent.tipReported repoPath tip]
    let resp := env.newRefResp repoId ("refs/heads/" ++ newBranchName) tip
    match dictGet resp "errors" with
    | .error e => (pre, some e)
    | .ok errsOpt =>
      let errsVal := errsOpt.getD .null
      if jsonTruthy errsVal then
        match errsVal with
        | .arr es =>
          let (logEvs, r) := logRefErrors repoPath es
          match r with
          | some e => (pre ++ logEvs, some e)
          | none => (pre ++ logEvs ++ fixPatchEvents env newBranchName repoPath, none)
        | _ => (pre, some .typeError)
      else
        (pre ++ fixPatchEvents env newBranchName repoPath, none)

/-- Python `cli_fix`'s loop over input lines: each line is stripped and
processed; an uncaught exception stops the whole loop. -/
def cliFix (env : FixEnv) (newBranchName : String) :
    List String → List FixEvent × Option PyErr
  | [] => ([], none)
  | line :: rest =>
    let (evs, r) := fixStep env newBranchName (pyRstrip line)
    match r with
    | some e => (evs, some e)
    | none =>
      let (evs2, r2) := cliFix env newBranchName rest
      (evs ++ evs2, r2)

/-- A repository node as returned by the `QueryRepos` GraphQL query
(`branch = none` models a `null` `defaultBranchRef`). -/
structure RepoNode : Type where
  name : String
  archived : Bool
  branch : Option String

/-- JSON encoding of a repository node, following the query's shape. -/
def RepoNode.toJson (r : RepoNode) : Json :=
  .obj [("nameWithOwner", .str r.name), ("isArchived", .bool r.archived),
        ("defaultBranchRef",
          match r.branch with
          | none => .null
          | some b => .obj [("name", .str b)])]

/-- A `data` object for the repository-listing query with the given
repository nodes. -/
def mkReposData (nodes : List Json) : Json :=
  .obj [("user", .obj [("repositories", .obj [("nodes", .arr nodes),
    ("pageInfo", .obj [("hasNextPage", .bool false), ("endCursor", .null)])])])]

/-- A full repository-listing API response with the given nodes and no
further pages. -/
def mkReposResp (nodes : List Json) : Json :=
  .obj [("data", mkReposData nodes)]

/-- A raw pull-request node as returned by the `QueryPrFiles` query. -/
structure PrNode : Type where
  title : String
  url : String
  filePaths : List String
  filesHasNext : Bool

/-- JSON encoding of a pull-request node, following the query's shape. -/
def PrNode.toJson (p : PrNode) : Json :=
  .obj [("files", .obj [
          ("nodes", .arr (p.filePaths.map fun fp => .obj [("path", .str fp)])),
          ("pageInfo", .obj [("hasNextPage", .bool p.filesHasNext)])]),
        ("title", .str p.title), ("url", .str p.url)]

/-- A `data` object for the PR-listing query with the given PR nodes. -/
def mkPrsData (prs : List PrNode) : Json :=
  .obj [("repository", .obj [("pullRequests", .obj [
    ("nodes", .arr (prs.map PrNode.toJson))])])]

/-- Every segment of the path leads through an object field that is
present and non-null, ending at the value `w`. -/
inductive PathLeadsTo : List String → Json → Json → Prop
  | nil (j : Json) : PathLeadsTo [] j j
  | cons {fields : List (String × Json)} {key : String} {v w : Json} {rest : List String} :
      lookupField fields key = some v → v ≠ Json.null →
      PathLeadsTo rest v w → PathLeadsTo (key :: rest) (Json.obj fields) w

/-- Some segment of the path hits an absent key or a key mapped to
`null` (both read back as Python `None`). -/
inductive PathBreaks : List String → Json → Prop
  | missingKey {fields : List (String × Json)} {key : String} {rest : List String} :
      lookupField fields key = none → PathBreaks (key :: rest) (Json.obj fields)
  | nullValue {fields : List (String × Json)} {key : String} {rest : List String} :
      lookupField fields key = some Json.null → PathBreaks (key :: rest) (Json.obj fields)
  | deeper {fields : List (String × Json)} {key : String} {v : Json} {rest : List String} :
      lookupField fields key = some v → v ≠ Json.null →
      PathBreaks rest v → PathBreaks (key :: rest) (Json.obj fields)

lemma findSegs_leads {ee : Bool} {segs : List String} {j w : Json}
    (h : PathLeadsTo segs j w) : findSegs ee segs j = .found w := by
  induction h with
  | nil j => rfl
  | cons hlk hnn htail ih =>
    simp only [findSegs, hlk]
    exact ih

lemma findSegs_breaks {ee : Bool} {segs : List String} {j : Json}
    (h : PathBreaks segs j) :
    findSegs ee segs j = if ee then .raisedMissing else .noneResult := by
  induction h with
  | missingKey hlk => simp only [findSegs, hlk]
  | nullValue hlk => simp only [findSegs, hlk]
  | deeper hlk hnn htail ih =>
    simp only [findSegs, hlk]
    exact ih

/-- C6: a dot-separated path whose every segment exists and maps to a
present (non-`None`) value is looked up to the deepest value; a path that
breaks at any segment raises the missing-path `ValueError` when
`expect_exists` is set and returns `None` otherwise. -/
theorem find_path_lookup (path : String) (json : Json) (expectExists : Bool) :
    (∀ w, PathLeadsTo (pySplit '.' path) json w →
      find path json expectExists = .found w) ∧
    (PathBreaks (pySplit '.' path) json →
      find path json expectExists =
        if expectExists then .raisedMissing else .noneResult) :=
  ⟨fun _ h => findSegs_leads h, fun h => findSegs_breaks h⟩

/-- Witness for C6 at concrete inputs: a fully present path is found, a
broken path raises under `expect_exists` and returns `None` without it. -/
theorem find_path_lookup_witness :
    find "a.b" (.obj [("a", .obj [("b", .str "x")])]) true = .found (.str "x") ∧
    find "a.c" (.obj [("a", .obj [("b", .str "x")])]) true = .raisedMissing ∧
    find "a.c" (.obj [("a", .obj [("b", .str "x")])]) false = .noneResult := by
  refine ⟨?_, ?_, ?_⟩
  · exact (find_path_lookup "a.b" (.obj [("a", .obj [("b", .str "x")])]) true).1
      (.str "x")
      (PathLeadsTo.cons rfl nofun (PathLeadsTo.cons rfl nofun (PathLeadsTo.nil _)))
  · exact (find_path_lookup "a.c" (.obj [("a", .obj [("b", .str "x")])]) true).2
      (PathBreaks.deeper rfl nofun (PathBreaks.missingKey rfl))
  · exact (find_path_lookup "a.c" (.obj [("a", .obj [("b", .str "x")])]) false).2
      (PathBreaks.deeper rfl nofun (PathBreaks.missingKey rfl))

/-- C10: `Page.map` keeps the cursor unchanged and replaces only the
results field. -/
theorem page_map_preserves_cursor {α β : Type} (p : Page α) (f : α → β) :
    (p.map f).curs = p.curs ∧ (p.map f).results = f p.results :=
  ⟨rfl, rfl⟩

/-- C2: a response whose top-level `errors` entry is a non-empty array is
rejected by `Page.from_api` with the graphql-errors `ValueError`, whatever
else the response contains. -/
theorem fromApi_rejects_errors (pageInfoPath : String) (apiResp : Json)
    (es : List Json) (h : dictGet apiResp "errors" = .ok (some (.arr es)))
    (hne : es ≠ []) :
    fromApi pageInfoPath apiResp = .error (.valueError "Errors in graphql response") := by
  cases es with
  | nil => exact absurd rfl hne
  | cons e es' =>
    unfold fromApi
    rw [h]
    rfl

/-- Witness for C2: a response carrying both a non-empty `errors` array
and perfectly valid data and pagination information is still rejected. -/
theorem fromApi_rejects_errors_witness :
    fromApi "pageInfo"
      (.obj [("errors", .arr [.obj [("message", .str "boom")]]),
             ("data", .obj [("pageInfo",
               .obj [("hasNextPage", .bool true), ("endCursor", .str "c")])])]) =
      .error (.valueError "Errors in graphql response") :=
  fromApi_rejects_errors "pageInfo" _ [.obj [("message", .str "boom")]] rfl nofun

/-- C5: a repository-listing page whose `user.repositories.nodes` list is
empty fails the `assert repos` invariant check instead of producing an
empty result. -/
theorem queryRepos_empty_page_asserts (anyBranch : Bool) (data : Json)
    (h : findExisting "user.repositories.nodes" data = .ok (.arr [])) :
    queryReposMapper anyBranch data = .error .assertError := by
  unfold queryReposMapper
  rw [h]
  rfl

/-- Witness for C5: an otherwise valid page with zero repository nodes is
rejected by the assertion. -/
theorem queryRepos_empty_page_asserts_witness :
    queryReposMapper false (mkReposData []) = .error .assertError :=
  queryRepos_empty_page_asserts false (mkReposData []) rfl

/-- A finite run of page fetches: starting from cursor `start`, `fetch`
returns the listed pages in order, each page but the last carrying a
non-empty string cursor that drives the next fetch, and the last page
carrying the `None` cursor. -/
inductive PageRun {α : Type} (fetch : Json → Page (List α)) :
    Json → List (Page (List α)) → Prop
  | last {start : Json} {p : Page (List α)} :
      fetch start = p → p.curs = Json.null → PageRun fetch start [p]
  | step {start : Json} {p : Page (List α)} {c : String} {rest : List (Page (List α))} :
      fetch start = p → p.curs = Json.str c → c ≠ "" →
      PageRun fetch (Json.str c) rest → PageRun fetch start (p :: rest)

lemma jsonTruthy_str_of_ne {c : String} (h : c ≠ "") :
    jsonTruthy (Json.str c) = true := by
  simp [jsonTruthy]
  exact h

lemma runIter_of_pageRun {α : Type} {fetch : Json → Page (List α)}
    {start : Json} {pages : List (Page (List α))} (h : PageRun fetch start pages) :
    ∀ {fuel : Nat}, pages.length ≤ fuel →
      runIter fetch fuel start = some ((pages.map Page.results).flatten, pages.length) := by
  induction h with
  | last hf hc =>
    intro fuel hfuel
    cases fuel with
    | zero => simp at hfuel
    | succ f =>
      simp only [runIter, hf, hc]
      simp [jsonTruthy]
  | step hf hc hne htail ih =>
    intro fuel hfuel
    cases fuel with
    | zero => simp at hfuel
    | succ f =>
      have hlen : _ ≤ f := Nat.le_of_succ_le_succ (by simpa using hfuel)
      simp only [runIter, hf, hc, jsonTruthy_str_of_ne hne, if_true, ih hlen]
      simp [Nat.add_comm]

/-- C1 (amended: the intermediate cursors are non-empty strings — the
iterator stops on any falsy cursor, so an empty-string cursor would end
the iteration early): iterating a query whose fetches form an N-page run
from the initial `None` cursor yields exactly the concatenation of the
pages' result lists in order, with exactly N fetch calls. -/
theorem query_iter_yields_all_pages {α : Type} (fetch : Json → Page (List α))
    (pages : List (Page (List α))) (h : PageRun fetch Json.null pages)
    (fuel : Nat) (hfuel : pages.length ≤ fuel) :
    runIter fetch fuel Json.null = some ((pages.map Page.results).flatten, pages.length) :=
  runIter_of_pageRun h hfuel

/-- Witness for C1: a two-page run yields the five items of both pages in
order with two fetch calls. -/
theorem query_iter_yields_all_pages_witness :
    runIter (fun after => match after with
      | Json.str "c1" => (⟨[3, 4, 5], Json.null⟩ : Page (List Nat))
      | _ => ⟨[1, 2], Json.str "c1"⟩) 2 Json.null = some ([1, 2, 3, 4, 5], 2) :=
  query_iter_yields_all_pages _ [⟨[1, 2], Json.str "c1"⟩, ⟨[3, 4, 5], Json.null⟩]
    (PageRun.step rfl rfl (by decide) (PageRun.last rfl rfl)) 2 (by decide)

/-- A fetch whose first page hands back the empty string as its cursor. -/
def fetchEmptyCursor : Json → Page (List Nat) :=
  fun after => match after with
  | Json.str "" => ⟨[2], Json.null⟩
  | _ => ⟨[1], Json.str ""⟩

/-- Counterexample to C1 as stated: a two-page run whose intermediate
cursor is the empty string.  The claim predicts both pages' items and two
fetch calls, but `not after` is true for the falsy empty string, so the
iterator stops after the first page with one fetch call. -/
theorem query_iter_empty_cursor_ce :
    fetchEmptyCursor Json.null = ⟨[1], Json.str ""⟩ ∧
    fetchEmptyCursor (Json.str "") = ⟨[2], Json.null⟩ ∧
    runIter fetchEmptyCursor 2 Json.null = some ([1], 1) ∧
    some (([1] : List Nat), 1) ≠ some ([1, 2], 2) :=
  ⟨rfl, rfl, rfl, by decide⟩

lemma ok_bind {ε α β : Type} (a : α) (f : α → Except ε β) :
    (Except.ok a : Except ε α) >>= f = f a := rfl

lemma jsonTruthy_bool (b : Bool) : jsonTruthy (.bool b) = b := rfl

/-- C3 (amended: provided the pagination descriptor's `endCursor` is a
string, i.e. non-null, as GitHub guarantees whenever `hasNextPage` is
true): an accepted response yields the page cursor `endCursor` when
`hasNextPage` is true and `None` when it is false, so the cursor is
`None` iff the API reports no further pages. -/
theorem fromApi_cursor_invariant (pageInfoPath : String)
    (apiResp data pageInfo : Json) (eo : Option Json) (b : Bool) (s : String)
    (he : dictGet apiResp "errors" = .ok eo)
    (het : jsonTruthy (eo.getD .null) = false)
    (hd : dictSubscript apiResp "data" = .ok data)
    (hp : findExisting pageInfoPath data = .ok pageInfo)
    (hn : dictSubscript pageInfo "hasNextPage" = .ok (.bool b))
    (hc : dictSubscript pageInfo "endCursor" = .ok (.str s)) :
    fromApi pageInfoPath apiResp = .ok ⟨data, if b then Json.str s else Json.null⟩ ∧
    ((if b then Json.str s else Json.null) = Json.null ↔ b = false) := by
  constructor
  · cases b with
    | false => simp [fromApi, he, het, hd, hp, hn, ok_bind, jsonTruthy_bool]
    | true => simp [fromApi, he, het, hd, hp, hn, hc, ok_bind, jsonTruthy_bool]
  · cases b with
    | false => simp
    | true => simp

/-- Witness for C3: a concrete accepted response with `hasNextPage` true
and a string `endCursor` gets that cursor; with `hasNextPage` false the
cursor is `None`. -/
theorem fromApi_cursor_invariant_witness :
    fromApi "pageInfo"
      (.obj [("data", .obj [("pageInfo",
        .obj [("hasNextPage", .bool true), ("endCursor", .str "abc")])])]) =
      .ok ⟨.obj [("pageInfo",
        .obj [("hasNextPage", .bool true), ("endCursor", .str "abc")])], Json.str "abc"⟩ :=
  (fromApi_cursor_invariant "pageInfo"
    (.obj [("data", .obj [("pageInfo",
      .obj [("hasNextPage", .bool true), ("endCursor", .str "abc")])])])
    (.obj [("pageInfo", .obj [("hasNextPage", .bool true), ("endCursor", .str "abc")])])
    (.obj [("hasNextPage", .bool true), ("endCursor", .str "abc")])
    none true "abc" rfl rfl rfl rfl rfl rfl).1

/-- Counterexample to C3 as stated: a response with `hasNextPage = true`
but a `null` `endCursor` is accepted, and the constructed page's cursor
is `None` even though the API reports that further pages exist — the
"cursor is `None` iff no further pages" invariant fails. -/
theorem fromApi_cursor_invariant_ce :
    fromApi "pageInfo"
      (.obj [("data", .obj [("pageInfo",
        .obj [("hasNextPage", .bool true), ("endCursor", .null)])])]) =
      .ok ⟨.obj [("pageInfo",
        .obj [("hasNextPage", .bool true), ("endCursor", .null)])], Json.null⟩ ∧
    dictSubscript (.obj [("hasNextPage", .bool true), ("endCursor", .null)])
      "hasNextPage" = .ok (.bool true) :=
  ⟨rfl, rfl⟩

/-- The predicate the repository filter implements: keep a repository iff
it is not archived and (unless `any_branch`) its default branch is the
configured branch to replace. -/
def repoKeep (anyBranch : Bool) (r : RepoNode) : Bool :=
  (anyBranch || r.branch == some REPLACING_BRANCH) && !r.archived

lemma repoCondition_toJson (anyBranch : Bool) (r : RepoNode) :
    repoCondition anyBranch r.toJson = .ok (repoKeep anyBranch r) := by
  obtain ⟨name, archived, branch⟩ := r
  cases anyBranch with
  | true => rfl
  | false =>
    cases branch with
    | none => rfl
    | some b =>
      show (if (b == REPLACING_BRANCH) = true then Except.ok (!archived)
            else Except.ok false : Except PyErr Bool) =
        Except.ok ((b == REPLACING_BRANCH) && !archived)
      cases b == REPLACING_BRANCH
      · rfl
      · rfl

lemma reposFilter_toJson (anyBranch : Bool) :
    ∀ rs : List RepoNode,
      reposFilter anyBranch (rs.map RepoNode.toJson) =
        .ok ((rs.filter (repoKeep anyBranch)).map fun r => Json.str r.name)
  | [] => rfl
  | r :: rs => by
    simp only [List.map_cons, reposFilter, repoCondition_toJson, ok_bind,
      reposFilter_toJson anyBranch rs, List.filter_cons]
    cases repoKeep anyBranch r
    · rfl
    · rfl

lemma findExisting_nodes (nodes : List Json) :
    findExisting "user.repositories.nodes" (mkReposData nodes) = .ok (.arr nodes) := rfl

lemma queryReposMapper_mkData (anyBranch : Bool) (rs : List RepoNode) (h : rs ≠ []) :
    queryReposMapper anyBranch (mkReposData (rs.map RepoNode.toJson)) =
      .ok ((rs.filter (repoKeep anyBranch)).map fun r => Json.str r.name) := by
  cases rs with
  | nil => exact absurd rfl h
  | cons r rs' =>
    show reposFilter anyBranch ((r :: rs').map RepoNode.toJson) =
      .ok (((r :: rs').filter (repoKeep anyBranch)).map fun x => Json.str x.name)
    exact reposFilter_toJson anyBranch (r :: rs')

/-- The three repository nodes of the spec's filtering example. -/
def exampleRepos : List RepoNode :=
  [⟨"a", false, some "master"⟩, ⟨"b", true, some "master"⟩, ⟨"c", false, some "main"⟩]

/-- C4: the repository-listing mapper always drops archived repositories
and, unless `any_branch`, repositories whose default branch is not the
configured `REPLACING_BRANCH`; on the spec's example nodes it yields
exactly `["a"]` with `any_branch = false` and `["a", "c"]` with
`any_branch = true`. -/
theorem queryRepos_filtering :
    (∀ (anyBranch : Bool) (rs : List RepoNode), rs ≠ [] →
      queryReposMapper anyBranch (mkReposData (rs.map RepoNode.toJson)) =
        .ok ((rs.filter (repoKeep anyBranch)).map fun r => Json.str r.name)) ∧
    queryReposMapper false (mkReposData (exampleRepos.map RepoNode.toJson)) =
      .ok [Json.str "a"] ∧
    queryReposMapper true (mkReposData (exampleRepos.map RepoNode.toJson)) =
      .ok [Json.str "a", Json.str "c"] :=
  ⟨queryReposMapper_mkData, rfl, rfl⟩

/-- Witness for C4: applying the universal part at a one-element node
list. -/
theorem queryRepos_filtering_witness :
    queryReposMapper true
      (mkReposData (([⟨"x", false, some "dev"⟩] : List RepoNode).map RepoNode.toJson)) =
      .ok [Json.str "x"] :=
  queryRepos_filtering.1 true [⟨"x", false, some "dev"⟩] nofun

lemma dictSubscript_path (fp : String) :
    dictSubscript (Json.obj [("path", Json.str fp)]) "path" = .ok (.str fp) := rfl

lemma prFilePaths_map (paths : List String) :
    prFilePaths (paths.map fun fp => Json.obj [("path", Json.str fp)]) =
      .ok (paths.map Json.str) := by
  induction paths with
  | nil => rfl
  | cons p ps ih =>
    simp only [List.map_cons, prFilePaths, dictSubscript_path, ok_bind, ih]

lemma makePrInfo_toJson (p : PrNode) :
    makePrInfo p.toJson =
      .ok (⟨Json.str p.title, Json.str p.url, p.filePaths.map Json.str⟩, p.filesHasNext) := by
  obtain ⟨t, u, fps, hn⟩ := p
  have h0 : makePrInfo (PrNode.toJson ⟨t, u, fps, hn⟩) =
      prFilePaths (fps.map fun fp => Json.obj [("path", Json.str fp)]) >>= (fun paths =>
        .ok (⟨Json.str t, Json.str u, paths⟩, hn)) := rfl
  rw [h0, prFilePaths_map]
  rfl

lemma mapM_makePrInfo (prs : List PrNode) :
    (prs.map PrNode.toJson).mapM makePrInfo =
      .ok (prs.map fun q =>
        (⟨Json.str q.title, Json.str q.url, q.filePaths.map Json.str⟩, q.filesHasNext)) := by
  induction prs with
  | nil => rfl
  | cons q qs ih =>
    rw [List.map_cons, List.mapM_cons, makePrInfo_toJson, ih]
    rfl

lemma queryPrsMapper_mkData (prs : List PrNode) :
    queryPrsMapper (mkPrsData prs) =
      .ok (prs.map fun q =>
        (⟨Json.str q.title, Json.str q.url, q.filePaths.map Json.str⟩, q.filesHasNext)) := by
  rw [show queryPrsMapper (mkPrsData prs) =
    (prs.map PrNode.toJson).mapM makePrInfo from rfl, mapM_makePrInfo]

/-- C7: a PR node whose files sub-list reports `hasNextPage = true` still
yields its `PrInfo` (title, url, first-page file paths) with the
truncation warning logged and no error; and the page mapper maps every PR
node, so iteration continues past truncated PRs. -/
theorem prFiles_truncation_soft :
    (∀ p : PrNode, p.filesHasNext = true →
      makePrInfo p.toJson =
        .ok (⟨Json.str p.title, Json.str p.url, p.filePaths.map Json.str⟩, true)) ∧
    (∀ prs : List PrNode, queryPrsMapper (mkPrsData prs) =
      .ok (prs.map fun q =>
        (⟨Json.str q.title, Json.str q.url, q.filePaths.map Json.str⟩, q.filesHasNext))) :=
  ⟨fun p hp => by rw [← hp]; exact makePrInfo_toJson p, queryPrsMapper_mkData⟩

/-- Witness for C7: a concrete truncated PR yields its `PrInfo` with the
warning flag set. -/
theorem prFiles_truncation_soft_witness :
    makePrInfo (PrNode.toJson ⟨"T", "U", ["f1", "f2"], true⟩) =
      .ok (⟨Json.str "T", Json.str "U", [Json.str "f1", Json.str "f2"]⟩, true) :=
  prFiles_truncation_soft.1 ⟨"T", "U", ["f1", "f2"], true⟩ rfl

/-- C8: in `cli_fix`, when a repository's source-branch tip resolves and
the `createRef` response carries error messages, each message is logged
and the default-branch PATCH is still issued for that same repository,
ending with the `Done` line; the iteration raises nothing, so subsequent
input lines are processed unchanged. -/
theorem cli_fix_logs_and_proceeds (env : FixEnv) (nb repoPath : String)
    (repoId tip : Json) (es msgs : List Json)
    (hb : getBranchInfo env repoPath REPLACING_BRANCH = .ok (repoId, tip))
    (_htip : tip ≠ Json.null)
    (he : dictGet (env.newRefResp repoId ("refs/heads/" ++ nb) tip) "errors" =
      .ok (some (.arr es)))
    (hne : es ≠ [])
    (hmsgs : logRefErrors repoPath es = (msgs.map (FixEvent.refErrorLogged repoPath), none))
    (hstrip : pyRstrip repoPath = repoPath) :
    fixStep env nb repoPath =
      ([FixEvent.processing repoPath, FixEvent.tipReported repoPath tip] ++
        msgs.map (FixEvent.refErrorLogged repoPath) ++
        ([FixEvent.patchIssued repoPath nb] ++
          (if env.patchStatus repoPath nb == 200 then []
           else [FixEvent.patchErrorLogged repoPath]) ++
          [FixEvent.stepDone repoPath]), none) ∧
    (∀ rest, cliFix env nb (repoPath :: rest) =
      (([FixEvent.processing repoPath, FixEvent.tipReported repoPath tip] ++
        msgs.map (FixEvent.refErrorLogged repoPath) ++
        ([FixEvent.patchIssued repoPath nb] ++
          (if env.patchStatus repoPath nb == 200 then []
           else [FixEvent.patchErrorLogged repoPath]) ++
          [FixEvent.stepDone repoPath])) ++ (cliFix env nb rest).1,
        (cliFix env nb rest).2)) := by
  have hstep : fixStep env nb repoPath =
      ([FixEvent.processing repoPath, FixEvent.tipReported repoPath tip] ++
        msgs.map (FixEvent.refErrorLogged repoPath) ++
        ([FixEvent.patchIssued repoPath nb] ++
          (if env.patchStatus repoPath nb == 200 then []
           else [FixEvent.patchErrorLogged repoPath]) ++
          [FixEvent.stepDone repoPath]), none) := by
    cases es with
    | nil => exact absurd rfl hne
    | cons e es' =>
      simp only [fixStep, hb, he, hmsgs, fixPatchEvents, Option.getD, jsonTruthy,
        List.isEmpty_cons, Bool.not_false, if_true]
  refine ⟨hstep, fun rest => ?_⟩
  rcases hcf : cliFix env nb rest with ⟨evs2, r2⟩
  simp only [cliFix, hstrip, hstep, hcf]

/-- C9 (amended: only the `find_pr` command validates its repo argument;
`get_branch_info`, which the `fix` workflow applies to every stdin line,
partitions on the first `/` and silently treats everything after it as
the repository name, so extra segments raise no error there): a two-field
`owner/name` string parses identically in both places, and a string with
extra `/`-separated fields is a `ValueError` in `cli_find_pr` but parses
without error in `get_branch_info`. -/
theorem repo_ref_parsing (s : String) :
    (∀ owner repo, pySplit '/' s = [owner, repo] →
      parseRepoFindPr s = .ok (owner, repo) ∧ parseRepoPartition s = (owner, repo)) ∧
    (∀ owner repo rest, pySplit '/' s = owner :: repo :: rest → rest ≠ [] →
      parseRepoFindPr s =
        .error (.valueError "Provided owner/repo has the wrong number of fields") ∧
      parseRepoPartition s = (owner, String.intercalate "/" (repo :: rest))) := by
  constructor
  · intro owner repo h
    constructor
    · simp only [parseRepoFindPr, h]
      rfl
    · simp only [parseRepoPartition, h]
      rfl
  · intro owner repo rest h hne
    constructor
    · cases rest with
      | nil => exact absurd rfl hne
      | cons x xs =>
        simp only [parseRepoFindPr, h]
        rfl
    · simp only [parseRepoPartition, h]

/-- Witness for C9: a well-formed reference parses in both commands; a
reference with an extra segment is rejected by `find_pr` but accepted by
the partition-based parsing of `fix`. -/
theorem repo_ref_parsing_witness :
    parseRepoFindPr "a/b" = .ok ("a", "b") ∧
    parseRepoPartition "a/b/c" = ("a", "b/c") := by
  constructor
  · exact ((repo_ref_parsing "a/b").1 "a" "b" rfl).1
  · exact ((repo_ref_parsing "a/b/c").2 "a" "b" ["c"] rfl nofun).2

/-- Benign network behaviour used by the C9 counterexample run. -/
def fixEnvPart : FixEnv :=
  ⟨fun _ _ _ => .obj [("data", .null)], fun _ _ _ => .obj [], fun _ _ => 200⟩

/-- Counterexample to C9 as stated: the repository reference `"a/b/c"`
has extra `/`-separated segments, yet the `fix` workflow raises no error
for it — `partition` takes owner `"a"` and name `"b/c"`, the network
queries are issued, and the line is processed to completion. -/
theorem repo_ref_parsing_ce :
    parseRepoPartition "a/b/c" = ("a", "b/c") ∧
    fixStep fixEnvPart "main" "a/b/c" =
      ([FixEvent.processing "a/b/c", FixEvent.tipReported "a/b/c" Json.null,
        FixEvent.patchIssued "a/b/c" "main", FixEvent.stepDone "a/b/c"], none) :=
  ⟨rfl, rfl⟩


/-- Network behaviour used by the C8 witness run: the branch tip
resolves, the `createRef` response carries one error message, and the
PATCH succeeds. -/
def fixEnvW : FixEnv :=
  ⟨fun _ _ _ => .obj [("data", .obj [("repository", .obj [("id", .str "RID"),
      ("ref", .obj [("target", .obj [("oid", .str "OID")])])])])],
    fun _ _ _ => .obj [("errors", .arr [.obj [("message", .str "boom")]])],
    fun _ _ => 200⟩

/-- Witness for C8: a concrete repository whose `createRef` call errors
still gets its PATCH issued, and the loop moves on to the next line. -/
theorem cli_fix_logs_and_proceeds_witness :
    fixStep fixEnvW "main" "o/r" =
      ([FixEvent.processing "o/r", FixEvent.tipReported "o/r" (Json.str "OID"),
        FixEvent.refErrorLogged "o/r" (Json.str "boom"),
        FixEvent.patchIssued "o/r" "main", FixEvent.stepDone "o/r"], none) := by
  have h := cli_fix_logs_and_proceeds fixEnvW "main" "o/r" (Json.str "RID")
    (Json.str "OID") [.obj [("message", .str "boom")]] [Json.str "boom"]
    rfl nofun rfl nofun rfl rfl
  exact h.1
